import Mathlib

set_option maxRecDepth 100000

/-!
Shallow embedding of the `OrdinalsVault` OP721 contract
(`src/contract/OrdinalsVault.ts`) and proofs of the specification claims.

Modelling conventions:
* Byte sequences are `List Nat` with entries below 256 (the encoders below
  only produce such entries).
* `u256`, `u64`, `u32` machine integers are `Nat`; wrap-around is written
  explicitly where the source wraps (`% 2 ^ 64` in the FNV-1a hash).
* Strings (inscription ids, the burn address) are carried as their UTF-8
  byte sequences directly, so `String.UTF8.encode` is the identity here.
* External cryptography (`sha256`, `Blockchain.verifyMLDSASignature`) and
  the contract address live in an `Env` record: the contract treats them
  as black boxes, so the theorems quantify over them.
* A `Revert` aborts the call and the host discards every write made during
  it (spec section 5, whole-call atomicity); operations therefore return
  `Except VaultError VaultState`, the error branch carrying no state.
-/

namespace OrdinalsVault

/-- Byte sequence: a list of naturals, each below 256. -/
abbrev Bytes := List Nat

/-- Big-endian encoding of `v` into exactly `w` bytes (value taken
modulo `256 ^ w`, most significant byte first), as produced by the
runtime `BytesWriter` (`writeU32`, `writeU64`, `writeU256`,
`writeAddress`, all big-endian per the source comment on
`buildAttestationHash`). -/
def natToBytesBE : Nat → Nat → Bytes
  | 0, _ => []
  | w + 1, v => natToBytesBE w (v / 256) ++ [v % 256]

/-- Little-endian reconstruction of a `u256` from a byte sequence:
`u256.fromBytes(bytes, false)` from `as-bignum` (the `false` flag selects
the little-endian interpretation, byte 0 least significant). -/
def u256fromBytesLE (bs : Bytes) : Nat :=
  bs.foldr (fun b acc => acc * 256 + b) 0

/-- One step of the 64-bit FNV-1a hash:
`h ^= byte; h = (h * 1099511628211) & 0xffffffffffffffff`. -/
def fnv1a64Step (h b : Nat) : Nat :=
  ((h ^^^ b) * 1099511628211) % (2 ^ 64)

/-- The 64-bit FNV-1a hash of a byte sequence, offset basis
`14695981039346656037` (loop bodies of `hashString` / `hashAddress`). -/
def fnv1a64 (bs : Bytes) : Nat :=
  bs.foldl fnv1a64Step 14695981039346656037

/-- `hashString`: FNV-1a u64 hash of the UTF-8 bytes of a string, widened
to `u256` (`u256.fromU64`), used as the storage key for inscription ids. -/
def hashString (s : Bytes) : Nat :=
  fnv1a64 s

/-- ASCII code of the lowercase hexadecimal digit for a nibble `n < 16`. -/
def hexDigitCode (n : Nat) : Nat :=
  if n < 10 then 48 + n else 87 + n

/-- UTF-8 bytes of the hexadecimal rendering of a 32-byte address
(`addr.toHex()`).  The `Address` class lives in the runtime, outside this
repository; its hex rendering is modelled as `0x` followed by 64 lowercase
hex digits.  No claim depends on the exact rendering, only on the digest
being a fixed deterministic function of the address. -/
def addrHexBytes (a : Nat) : Bytes :=
  48 :: 120 :: (natToBytesBE 32 a).flatMap (fun b => [hexDigitCode (b / 16), hexDigitCode (b % 16)])

/-- `hashAddress`: FNV-1a u64 hash of the UTF-8 bytes of the address's hex
string, widened to `u256`; stored as the burner fingerprint. -/
def hashAddress (a : Nat) : Nat :=
  fnv1a64 (addrHexBytes a)

/-- Pointwise update of a stored map (`StoredMapU256.set`); unset keys
read as zero, matching `StoredMapU256.get` returning `u256.Zero`. -/
def setMap (m : Nat → Nat) (k v : Nat) : Nat → Nat :=
  fun x => if x = k then v else m x

/-- Execution environment: the cryptographic primitives and the contract
address, which the contract consumes as black boxes. -/
structure Env where
  /-- `sha256` from the runtime environment. -/
  sha256 : Bytes → Bytes
  /-- `Blockchain.verifyMLDSASignature(Level2, publicKey, signature, hash)`. -/
  mldsaVerify : Bytes → Bytes → Bytes → Bool
  /-- `Blockchain.contract.address`, a 32-byte address as a `u256` value. -/
  contractAddress : Nat

/-- Persistent state of one `OrdinalsVault` instance: the contract's own
pointer-backed storage plus the OP721 base-class fields it touches. -/
structure VaultState where
  /-- inscriptionHash → FNV-64 hash of burner address (0 = not recorded). -/
  verifiedBurns : Nat → Nat
  /-- inscriptionHash → block number when burn was recorded (0 = none). -/
  burnBlockHeights : Nat → Nat
  /-- inscriptionHash → tokenId + 1 (0 = not minted). -/
  mintedInscriptions : Nat → Nat
  /-- nonce → `u256.One` if used. -/
  usedNonces : Nat → Nat
  /-- sha256 of the oracle ML-DSA-44 public key, stored as `u256`. -/
  oracleKeyHash : Nat
  /-- sha256 of the collection slug, or 0 for universal mode. -/
  collectionIdHash : Nat
  /-- Bitcoin burn address string (UTF-8 bytes). -/
  burnAddress : Bytes
  /-- Collection name (UTF-8 bytes), from the OP721 base class. -/
  name : Bytes
  /-- Collection symbol (UTF-8 bytes), from the OP721 base class. -/
  symbol : Bytes
  /-- OP721 `_nextTokenId` counter. -/
  nextTokenId : Nat
  /-- OP721 `_maxSupply`. -/
  maxSupply : Nat
  /-- OP721 `_totalSupply`: number of tokens in existence. -/
  totalSupply : Nat
  /-- OP721 `ownerOfMap`: tokenId → owner, `none` if the token does not exist. -/
  owners : Nat → Option Nat
  /-- OP721 token URI storage: tokenId → custom URI bytes. -/
  tokenURIs : Nat → Option Bytes
  /-- The deploying address (`onlyDeployer` authority). -/
  deployer : Nat

/-- Rejection reasons, one per `Revert` site (spec section 7 taxonomy).
`TokenExists` is the OP721 base-class `_mint` revert for an already
existing token id. -/
inductive VaultError where
  | Expired
  | NonceReused
  | AlreadyRecorded
  | AlreadyMinted
  | CollectionMismatch
  | UnknownOracleKey
  | InvalidSignature
  | NotRecorded
  | WrongClaimant
  | ConfirmationPending
  | SupplyExhausted
  | Unauthorized
  | TokenExists
  deriving DecidableEq, Repr

/-- `buildAttestationHash` message bytes, translated from the source:
`writeAddress(contract) ; writeU32(len) ; writeBytes(insc) ;
writeAddress(burner) ; writeU64(deadline) ; writeU256(nonce) ;
writeU256(collectionIdHash)`, every writer big-endian. -/
def buildAttestationMsg (contractAddress : Nat) (inscriptionId : Bytes)
    (burner deadline nonce collectionIdHash : Nat) : Bytes :=
  natToBytesBE 32 contractAddress
    ++ natToBytesBE 4 inscriptionId.length
    ++ inscriptionId
    ++ natToBytesBE 32 burner
    ++ natToBytesBE 8 deadline
    ++ natToBytesBE 32 nonce
    ++ natToBytesBE 32 collectionIdHash

/-- Attestation byte layout as the specification words it (section 4.3):
`contractAddress(32)`, then the length of the UTF-8 claim id as a 4-byte
big-endian u32, then the claim id bytes, then `claimant(32)`, then the
deadline as an 8-byte big-endian u64, then `nonce(32)`, then
`collectionBinding(32)`.  Written from the spec, to be compared against
`buildAttestationMsg` written from the source. -/
def specAttestationLayout (contractAddress : Nat) (claimId : Bytes)
    (claimant deadline nonce collectionBinding : Nat) : Bytes :=
  natToBytesBE 32 contractAddress
    ++ natToBytesBE 4 claimId.length
    ++ claimId
    ++ natToBytesBE 32 claimant
    ++ natToBytesBE 8 deadline
    ++ natToBytesBE 32 nonce
    ++ natToBytesBE 32 collectionBinding

/-- Digest the verifier checks the oracle signature against:
`sha256(buildAttestationHash message)`. -/
def attestationDigest (env : Env) (inscriptionId : Bytes)
    (burner deadline nonce collectionIdHash : Nat) : Bytes :=
  env.sha256 (buildAttestationMsg env.contractAddress inscriptionId burner deadline nonce collectionIdHash)

/-- `recordBurnWithAttestation`, translated check for check from the
source.  `blockNumber` is `Blockchain.block.number` at the call. -/
def recordBurnWithAttestation (env : Env) (blockNumber : Nat) (s : VaultState)
    (inscriptionId : Bytes) (burner deadline nonce collectionIdHash : Nat)
    (oraclePublicKey oracleSig : Bytes) : Except VaultError VaultState :=
  if blockNumber > deadline then
    .error .Expired
  else if s.usedNonces nonce ≠ 0 then
    .error .NonceReused
  else if s.verifiedBurns (hashString inscriptionId) ≠ 0 then
    .error .AlreadyRecorded
  else if s.mintedInscriptions (hashString inscriptionId) ≠ 0 then
    .error .AlreadyMinted
  else if s.collectionIdHash ≠ 0 ∧ collectionIdHash ≠ s.collectionIdHash then
    .error .CollectionMismatch
  else if u256fromBytesLE (env.sha256 oraclePublicKey) ≠ s.oracleKeyHash then
    .error .UnknownOracleKey
  else if env.mldsaVerify oraclePublicKey oracleSig
      (attestationDigest env inscriptionId burner deadline nonce collectionIdHash) = false then
    .error .InvalidSignature
  else
    .ok { s with
      usedNonces := setMap s.usedNonces nonce 1,
      verifiedBurns := setMap s.verifiedBurns (hashString inscriptionId) (hashAddress burner),
      burnBlockHeights := setMap s.burnBlockHeights (hashString inscriptionId) blockNumber }

/-- `mint`, translated from the source; returns the new state and the
token id.  The trailing two guards are the OP721 base-class `_mint`
behaviour, which is not under `src/`; modelled from the spec and the
repository's OIP-721 document, section 8: `_mint` reverts if the token
exists or the maximum supply is reached.  `SafeMath.add(tokenId, 1)`
cannot overflow because `tokenId < maxSupply < 2 ^ 256`. -/
def mint (blockNumber : Nat) (caller : Nat) (s : VaultState)
    (inscriptionId : Bytes) : Except VaultError (VaultState × Nat) :=
  if s.verifiedBurns (hashString inscriptionId) = 0 then
    .error .NotRecorded
  else if s.verifiedBurns (hashString inscriptionId) ≠ hashAddress caller then
    .error .WrongClaimant
  else if blockNumber ≤ s.burnBlockHeights (hashString inscriptionId) then
    .error .ConfirmationPending
  else if s.mintedInscriptions (hashString inscriptionId) ≠ 0 then
    .error .AlreadyMinted
  else if s.nextTokenId ≥ s.maxSupply then
    .error .SupplyExhausted
  else if (s.owners s.nextTokenId).isSome then
    .error .TokenExists
  else if s.totalSupply ≥ s.maxSupply then
    .error .SupplyExhausted
  else
    .ok ({ s with
      owners := fun x => if x = s.nextTokenId then some caller else s.owners x,
      totalSupply := s.totalSupply + 1,
      nextTokenId := s.nextTokenId + 1,
      tokenURIs := fun x => if x = s.nextTokenId then some inscriptionId else s.tokenURIs x,
      mintedInscriptions := setMap s.mintedInscriptions (hashString inscriptionId) (s.nextTokenId + 1) }, s.nextTokenId)

/-- `setOracle`: `onlyDeployer` guard, then unconditional replacement of
the stored oracle key hash. -/
def setOracle (caller : Nat) (s : VaultState) (newKeyHash : Nat) :
    Except VaultError VaultState :=
  if caller ≠ s.deployer then
    .error .Unauthorized
  else
    .ok { s with oracleKeyHash := newKeyHash }

/-- `getBurnStatus`: the `(verified, minted)` pair for an inscription id. -/
def getBurnStatus (s : VaultState) (inscriptionId : Bytes) : Bool × Bool :=
  (s.verifiedBurns (hashString inscriptionId) != 0,
    s.mintedInscriptions (hashString inscriptionId) != 0)

/-- `onDeployment`: the freshly deployed state.  The OP721 base-class
`instantiate` is not under `src/`; modelled from the spec and the
repository's OIP-721 document, section 10.1: `_nextTokenId` is
initialized to `u256.One` (token ids start at 1), `_totalSupply` at 0. -/
def onDeployment (deployer : Nat) (name symbol : Bytes) (maxSupply : Nat)
    (burnAddress : Bytes) (oracleKeyHash collectionIdHash : Nat) : VaultState :=
  { verifiedBurns := fun _ => 0
    burnBlockHeights := fun _ => 0
    mintedInscriptions := fun _ => 0
    usedNonces := fun _ => 0
    oracleKeyHash := oracleKeyHash
    collectionIdHash := collectionIdHash
    burnAddress := burnAddress
    name := name
    symbol := symbol
    nextTokenId := 1
    maxSupply := maxSupply
    totalSupply := 0
    owners := fun _ => none
    tokenURIs := fun _ => none
    deployer := deployer }

/-- State after a call under the host's whole-call atomicity: on success
the returned state, on a revert the pre-state (every write discarded). -/
def afterRecord (r : Except VaultError VaultState) (s : VaultState) : VaultState :=
  match r with
  | .ok s2 => s2
  | .error _ => s

/-- State after a `mint` call under the host's whole-call atomicity. -/
def afterMint (r : Except VaultError (VaultState × Nat)) (s : VaultState) : VaultState :=
  match r with
  | .ok p => p.1
  | .error _ => s

/-- Whether an `Except` result is a success. -/
def recordOk (r : Except VaultError VaultState) : Bool :=
  match r with
  | .ok _ => true
  | .error _ => false

/-- Per-claim lifecycle position, read off the two ledger maps: 2 once the
minted marker is set, 1 once a burn record exists, 0 otherwise.  The claim
state machine `unset → recorded → minted` must only move forward. -/
def claimRank (s : VaultState) (key : Nat) : Nat :=
  if s.mintedInscriptions key ≠ 0 then 2
  else if s.verifiedBurns key ≠ 0 then 1
  else 0

/-! Characterizations of the two state-changing operations. -/

/-- An `Except` that is `.ok` for no state is an error. -/
lemma exists_error_of_no_ok {α : Type} (r : Except VaultError α)
    (h : ∀ a, r ≠ .ok a) : ∃ e, r = .error e := by
  cases r with
  | error e => exact ⟨e, rfl⟩
  | ok a => exact absurd rfl (h a)

/-- Success characterization of `recordBurnWithAttestation`: the call
returns `.ok` exactly when every check passes, and then the new state is
the old one with the nonce marked used, the burner fingerprint recorded
and the recording height stored. -/
lemma record_ok_iff (env : Env) (bn : Nat) (s : VaultState) (ins : Bytes)
    (burner dl nonce cid : Nat) (pk sig : Bytes) (s2 : VaultState) :
    recordBurnWithAttestation env bn s ins burner dl nonce cid pk sig = .ok s2 ↔
      bn ≤ dl ∧ s.usedNonces nonce = 0 ∧
      s.verifiedBurns (hashString ins) = 0 ∧
      s.mintedInscriptions (hashString ins) = 0 ∧
      (s.collectionIdHash = 0 ∨ cid = s.collectionIdHash) ∧
      u256fromBytesLE (env.sha256 pk) = s.oracleKeyHash ∧
      env.mldsaVerify pk sig (attestationDigest env ins burner dl nonce cid) = true ∧
      s2 = { s with
        usedNonces := setMap s.usedNonces nonce 1,
        verifiedBurns := setMap s.verifiedBurns (hashString ins) (hashAddress burner),
        burnBlockHeights := setMap s.burnBlockHeights (hashString ins) bn } := by
  unfold recordBurnWithAttestation
  split_ifs with h1 h2 h3 h4 h5 h6 h7
  · simp only [reduceCtorEq, false_iff]
    rintro ⟨hdl, -⟩
    omega
  · simp only [reduceCtorEq, false_iff]
    rintro ⟨-, hn, -⟩
    exact h2 hn
  · simp only [reduceCtorEq, false_iff]
    rintro ⟨-, -, hv, -⟩
    exact h3 hv
  · simp only [reduceCtorEq, false_iff]
    rintro ⟨-, -, -, hm, -⟩
    exact h4 hm
  · simp only [reduceCtorEq, false_iff]
    rintro ⟨-, -, -, -, hc, -⟩
    rcases hc with hc | hc
    · exact h5.1 hc
    · exact h5.2 hc
  · simp only [reduceCtorEq, false_iff]
    rintro ⟨-, -, -, -, -, hk, -⟩
    exact h6 hk
  · simp only [reduceCtorEq, false_iff]
    rintro ⟨-, -, -, -, -, -, hsig, -⟩
    simp [h7] at hsig
  · simp only [Except.ok.injEq]
    constructor
    · intro h
      refine ⟨by omega, not_ne_iff.mp h2, not_ne_iff.mp h3, not_ne_iff.mp h4, ?_, not_ne_iff.mp h6, by simpa using h7, h.symm⟩
      by_cases hz : s.collectionIdHash = 0
      · exact Or.inl hz
      · exact Or.inr (by_contra fun hne => h5 ⟨hz, hne⟩)
    · rintro ⟨-, -, -, -, -, -, -, hs⟩
      exact hs.symm

/-- Success characterization of `mint`. -/
lemma mint_ok_iff (bn caller : Nat) (s : VaultState) (ins : Bytes)
    (s2 : VaultState) (tid : Nat) :
    mint bn caller s ins = .ok (s2, tid) ↔
      s.verifiedBurns (hashString ins) ≠ 0 ∧
      s.verifiedBurns (hashString ins) = hashAddress caller ∧
      bn > s.burnBlockHeights (hashString ins) ∧
      s.mintedInscriptions (hashString ins) = 0 ∧
      s.nextTokenId < s.maxSupply ∧
      s.owners s.nextTokenId = none ∧
      s.totalSupply < s.maxSupply ∧
      tid = s.nextTokenId ∧
      s2 = { s with
        owners := fun x => if x = s.nextTokenId then some caller else s.owners x,
        totalSupply := s.totalSupply + 1,
        nextTokenId := s.nextTokenId + 1,
        tokenURIs := fun x => if x = s.nextTokenId then some ins else s.tokenURIs x,
        mintedInscriptions := setMap s.mintedInscriptions (hashString ins) (s.nextTokenId + 1) } := by
  unfold mint
  split_ifs with h1 h2 h3 h4 h5 h6 h7
  · simp only [reduceCtorEq, false_iff]
    rintro ⟨hv, -⟩
    exact hv h1
  · simp only [reduceCtorEq, false_iff]
    rintro ⟨-, hc, -⟩
    exact h2 hc
  · simp only [reduceCtorEq, false_iff]
    rintro ⟨-, -, hb, -⟩
    omega
  · simp only [reduceCtorEq, false_iff]
    rintro ⟨-, -, -, hm, -⟩
    exact h4 hm
  · simp only [reduceCtorEq, false_iff]
    rintro ⟨-, -, -, -, ht, -⟩
    omega
  · simp only [reduceCtorEq, false_iff]
    rintro ⟨-, -, -, -, -, ho, -⟩
    simp [ho] at h6
  · simp only [reduceCtorEq, false_iff]
    rintro ⟨-, -, -, -, -, -, hs, -⟩
    omega
  · simp only [Except.ok.injEq, Prod.mk.injEq]
    constructor
    · rintro ⟨hs, htid⟩
      exact ⟨h1, not_ne_iff.mp h2, by omega, not_ne_iff.mp h4, by omega,
        Option.not_isSome_iff_eq_none.mp h6, by omega, htid.symm, hs.symm⟩
    · rintro ⟨-, -, -, -, -, -, -, htid, hs⟩
      exact ⟨hs.symm, htid.symm⟩

/-- With the deadline and nonce checks passing, a non-zero burn record is
reported as `AlreadyRecorded`. -/
lemma record_error_already_recorded (env : Env) (bn : Nat) (s : VaultState)
    (ins : Bytes) (burner dl nonce cid : Nat) (pk sig : Bytes)
    (hdl : bn ≤ dl) (hn : s.usedNonces nonce = 0)
    (hv : s.verifiedBurns (hashString ins) ≠ 0) :
    recordBurnWithAttestation env bn s ins burner dl nonce cid pk sig = .error .AlreadyRecorded := by
  unfold recordBurnWithAttestation
  rw [if_neg (by omega), if_neg (not_ne_iff.mpr hn), if_pos hv]

/-- With the deadline and nonce checks passing and no burn record, a
non-zero minted marker is reported as `AlreadyMinted`. -/
lemma record_error_already_minted (env : Env) (bn : Nat) (s : VaultState)
    (ins : Bytes) (burner dl nonce cid : Nat) (pk sig : Bytes)
    (hdl : bn ≤ dl) (hn : s.usedNonces nonce = 0)
    (hv : s.verifiedBurns (hashString ins) = 0)
    (hm : s.mintedInscriptions (hashString ins) ≠ 0) :
    recordBurnWithAttestation env bn s ins burner dl nonce cid pk sig = .error .AlreadyMinted := by
  unfold recordBurnWithAttestation
  rw [if_neg (by omega), if_neg (not_ne_iff.mpr hn), if_neg (not_ne_iff.mpr hv), if_pos hm]

/-- With a live deadline, a used nonce is reported as `NonceReused`. -/
lemma record_error_nonce (env : Env) (bn : Nat) (s : VaultState)
    (ins : Bytes) (burner dl nonce cid : Nat) (pk sig : Bytes)
    (hdl : bn ≤ dl) (hn : s.usedNonces nonce ≠ 0) :
    recordBurnWithAttestation env bn s ins burner dl nonce cid pk sig = .error .NonceReused := by
  unfold recordBurnWithAttestation
  rw [if_neg (by omega), if_pos hn]

/-- With checks 1-4 passing, a collection-binding mismatch against a
non-zero stored value is reported as `CollectionMismatch`. -/
lemma record_error_collection (env : Env) (bn : Nat) (s : VaultState)
    (ins : Bytes) (burner dl nonce cid : Nat) (pk sig : Bytes)
    (hdl : bn ≤ dl) (hn : s.usedNonces nonce = 0)
    (hv : s.verifiedBurns (hashString ins) = 0)
    (hm : s.mintedInscriptions (hashString ins) = 0)
    (hcz : s.collectionIdHash ≠ 0) (hne : cid ≠ s.collectionIdHash) :
    recordBurnWithAttestation env bn s ins burner dl nonce cid pk sig = .error .CollectionMismatch := by
  unfold recordBurnWithAttestation
  rw [if_neg (by omega), if_neg (not_ne_iff.mpr hn), if_neg (not_ne_iff.mpr hv),
    if_neg (not_ne_iff.mpr hm), if_pos ⟨hcz, hne⟩]

/-- With checks 1-4 passing and the collection binding accepted, a public
key whose digest differs from the stored fingerprint is reported as
`UnknownOracleKey` — for every environment, in particular whatever the
signature verifier would have answered. -/
lemma record_error_unknown_key (env : Env) (bn : Nat) (s : VaultState)
    (ins : Bytes) (burner dl nonce cid : Nat) (pk sig : Bytes)
    (hdl : bn ≤ dl) (hn : s.usedNonces nonce = 0)
    (hv : s.verifiedBurns (hashString ins) = 0)
    (hm : s.mintedInscriptions (hashString ins) = 0)
    (hc : s.collectionIdHash = 0 ∨ cid = s.collectionIdHash)
    (hk : u256fromBytesLE (env.sha256 pk) ≠ s.oracleKeyHash) :
    recordBurnWithAttestation env bn s ins burner dl nonce cid pk sig = .error .UnknownOracleKey := by
  unfold recordBurnWithAttestation
  rw [if_neg (by omega), if_neg (not_ne_iff.mpr hn), if_neg (not_ne_iff.mpr hv),
    if_neg (not_ne_iff.mpr hm), if_neg (by tauto), if_pos hk]

/-- A recorded claim whose fingerprint differs from the caller's digest is
reported as `WrongClaimant`. -/
lemma mint_error_wrong_claimant (bn caller : Nat) (s : VaultState) (ins : Bytes)
    (hv : s.verifiedBurns (hashString ins) ≠ 0)
    (hne : s.verifiedBurns (hashString ins) ≠ hashAddress caller) :
    mint bn caller s ins = .error .WrongClaimant := by
  unfold mint
  rw [if_neg hv, if_pos hne]

/-- The recorded claimant calling at a height not above the recording
height is reported `ConfirmationPending`. -/
lemma mint_error_pending (bn caller : Nat) (s : VaultState) (ins : Bytes)
    (hv : s.verifiedBurns (hashString ins) ≠ 0)
    (heq : s.verifiedBurns (hashString ins) = hashAddress caller)
    (hb : bn ≤ s.burnBlockHeights (hashString ins)) :
    mint bn caller s ins = .error .ConfirmationPending := by
  unfold mint
  rw [if_neg hv, if_neg (not_ne_iff.mpr heq), if_pos hb]

/-- The recorded claimant calling after the delay on an already minted
claim is reported `AlreadyMinted`. -/
lemma mint_error_already_minted (bn caller : Nat) (s : VaultState) (ins : Bytes)
    (hv : s.verifiedBurns (hashString ins) ≠ 0)
    (heq : s.verifiedBurns (hashString ins) = hashAddress caller)
    (hb : bn > s.burnBlockHeights (hashString ins))
    (hm : s.mintedInscriptions (hashString ins) ≠ 0) :
    mint bn caller s ins = .error .AlreadyMinted := by
  unfold mint
  rw [if_neg hv, if_neg (not_ne_iff.mpr heq), if_neg (by omega), if_pos hm]

/-- The recorded claimant calling after the delay on an unminted claim
with the token counter at or above the maximum supply is reported
`SupplyExhausted`. -/
lemma mint_error_supply (bn caller : Nat) (s : VaultState) (ins : Bytes)
    (hv : s.verifiedBurns (hashString ins) ≠ 0)
    (heq : s.verifiedBurns (hashString ins) = hashAddress caller)
    (hb : bn > s.burnBlockHeights (hashString ins))
    (hm : s.mintedInscriptions (hashString ins) = 0)
    (hge : s.nextTokenId ≥ s.maxSupply) :
    mint bn caller s ins = .error .SupplyExhausted := by
  unfold mint
  rw [if_neg hv, if_neg (not_ne_iff.mpr heq), if_neg (by omega),
    if_neg (not_ne_iff.mpr hm), if_pos hge]

/-! Concrete fixtures used by witnesses and counterexamples.  `envT` is a
test environment whose signature verifier accepts everything, so that the
checks under scrutiny are the contract's own. -/

/-- Test environment: constant `sha256`, all-accepting verifier. -/
def envT : Env :=
  { sha256 := fun _ => [], mldsaVerify := fun _ _ _ => true, contractAddress := 0 }

/-- Universal-mode vault, max supply 10, deployed by address 7. -/
def sMax10 : VaultState := onDeployment 7 [] [] 10 [] 0 0

/-- Universal-mode vault, max supply 1, deployed by address 7. -/
def sMax1 : VaultState := onDeployment 7 [] [] 1 [] 0 0

/-- Collection-scoped vault: stored collection id hash 77. -/
def sCol : VaultState := onDeployment 7 [] [] 10 [] 0 77

/-- State of `sMax10` after a successful burn record for inscription
`[97]` by burner 3 with nonce 1, recorded at height 5 (deadline 9). -/
def sRec : VaultState :=
  afterRecord (recordBurnWithAttestation envT 5 sMax10 [97] 3 9 1 0 [] []) sMax10

/-- State of `sMax1` after the analogous successful burn record. -/
def sRec1 : VaultState :=
  afterRecord (recordBurnWithAttestation envT 5 sMax1 [97] 3 9 1 0 [] []) sMax1

/-- State of `sRec` after the recorded claimant 3 mints at height 6. -/
def sMinted : VaultState :=
  afterMint (mint 6 3 sRec [97]) sRec

/-! Claim theorems. -/

/-- Claim C1: the digest the verifier checks the oracle signature against
equals sha256 of exactly `contractAddress(32) ‖ len(inscriptionId)(4, BE
u32) ‖ inscriptionId UTF-8 bytes ‖ burner(32) ‖ deadline(8, BE u64) ‖
nonce(32, BE u256) ‖ collectionIdHash(32, BE u256)`; consequently any two
reconstructions of this layout from the same inputs hash identically
under any digest function. -/
theorem C1_attestation_digest_layout (env : Env) (ins : Bytes)
    (burner dl nonce cid : Nat) :
    buildAttestationMsg env.contractAddress ins burner dl nonce cid =
      specAttestationLayout env.contractAddress ins burner dl nonce cid ∧
    attestationDigest env ins burner dl nonce cid =
      env.sha256 (specAttestationLayout env.contractAddress ins burner dl nonce cid) ∧
    ∀ digest : Bytes → Bytes,
      digest (buildAttestationMsg env.contractAddress ins burner dl nonce cid) =
        digest (specAttestationLayout env.contractAddress ins burner dl nonce cid) :=
  ⟨rfl, rfl, fun _ => rfl⟩

/-- Claim C3: `recordBurnWithAttestation` is all-or-nothing.  A failed
call leaves the state unchanged (the error branch commits nothing, so the
post-state under the host's whole-call atomicity is the pre-state); a
successful call changes exactly the nonce marker, the burn record and the
recording height; and the nonce ends up marked used exactly when the call
that presented it succeeded (or it was already used before). -/
theorem C3_record_atomicity (env : Env) (bn : Nat) (s : VaultState)
    (ins : Bytes) (burner dl nonce cid : Nat) (pk sig : Bytes) :
    (∀ e, recordBurnWithAttestation env bn s ins burner dl nonce cid pk sig = .error e →
      afterRecord (recordBurnWithAttestation env bn s ins burner dl nonce cid pk sig) s = s) ∧
    (∀ s2, recordBurnWithAttestation env bn s ins burner dl nonce cid pk sig = .ok s2 →
      s2.usedNonces = setMap s.usedNonces nonce 1 ∧
      s2.verifiedBurns = setMap s.verifiedBurns (hashString ins) (hashAddress burner) ∧
      s2.burnBlockHeights = setMap s.burnBlockHeights (hashString ins) bn ∧
      s2.mintedInscriptions = s.mintedInscriptions ∧
      s2.oracleKeyHash = s.oracleKeyHash ∧
      s2.collectionIdHash = s.collectionIdHash ∧
      s2.nextTokenId = s.nextTokenId ∧
      s2.totalSupply = s.totalSupply ∧
      s2.owners = s.owners ∧
      s2.tokenURIs = s.tokenURIs ∧
      s2.burnAddress = s.burnAddress ∧
      s2.deployer = s.deployer) ∧
    ((afterRecord (recordBurnWithAttestation env bn s ins burner dl nonce cid pk sig) s).usedNonces nonce ≠ 0 ↔
      recordOk (recordBurnWithAttestation env bn s ins burner dl nonce cid pk sig) = true ∨
        s.usedNonces nonce ≠ 0) := by
  refine ⟨fun e he => by rw [he]; rfl, fun s2 hs2 => ?_, ?_⟩
  · rw [record_ok_iff] at hs2
    obtain ⟨-, -, -, -, -, -, -, hs⟩ := hs2
    subst hs
    exact ⟨rfl, rfl, rfl, rfl, rfl, rfl, rfl, rfl, rfl, rfl, rfl, rfl⟩
  · rcases hr : recordBurnWithAttestation env bn s ins burner dl nonce cid pk sig with e | s2
    · simp only [afterRecord, recordOk, reduceCtorEq, false_or]
    · rw [record_ok_iff] at hr
      obtain ⟨-, -, -, -, -, -, -, hs⟩ := hr
      subst hs
      simp [afterRecord, recordOk, setMap]

/-- Claim C4: in the vault deployed with max supply 1 the scenario fails.
Token ids start at 1 (OIP-721), so after a valid burn record for `[97]`
the recorded claimant's mint one height later is rejected with
`SupplyExhausted` — `tokenId = 1 ≥ maxSupply = 1` — instead of returning
token id 1 as the claim states; in the same vault with max supply 10 the
identical scenario succeeds and returns token id 1, showing the recording
and delay are not at fault.  The code caps the number of mintable tokens
at `maxSupply - 1`. -/
theorem C4_maxsupply_one_mint_fails :
    sMax1.maxSupply = 1 ∧ sMax1.nextTokenId = 1 ∧
    recordBurnWithAttestation envT 5 sMax1 [97] 3 9 1 0 [] [] = .ok sRec1 ∧
    mint 6 3 sRec1 [97] = .error .SupplyExhausted ∧
    mint 6 3 sRec [97] = .ok (sMinted, 1) :=
  ⟨rfl, rfl, rfl, rfl, rfl⟩

/-- Witness for C3: the concrete successful record on `sMax10` changes
exactly the nonce marker, the burn record and the recording height. -/
theorem C3_record_atomicity_witness :
    recordBurnWithAttestation envT 5 sMax10 [97] 3 9 1 0 [] [] = .ok sRec ∧
    sRec.usedNonces = setMap sMax10.usedNonces 1 1 ∧
    sRec.verifiedBurns = setMap sMax10.verifiedBurns (hashString [97]) (hashAddress 3) ∧
    sRec.burnBlockHeights = setMap sMax10.burnBlockHeights (hashString [97]) 5 ∧
    sRec.mintedInscriptions = sMax10.mintedInscriptions :=
  ⟨rfl,
    ((C3_record_atomicity envT 5 sMax10 [97] 3 9 1 0 [] []).2.1 sRec rfl).1,
    ((C3_record_atomicity envT 5 sMax10 [97] 3 9 1 0 [] []).2.1 sRec rfl).2.1,
    ((C3_record_atomicity envT 5 sMax10 [97] 3 9 1 0 [] []).2.1 sRec rfl).2.2.1,
    ((C3_record_atomicity envT 5 sMax10 [97] 3 9 1 0 [] []).2.1 sRec rfl).2.2.2.1⟩

/-- Claim C2: the per-claim record only moves forward.  Whenever the burn
record or minted marker is non-zero, `recordBurnWithAttestation` is
rejected — with `AlreadyRecorded` or `AlreadyMinted` whenever the earlier
deadline and nonce checks pass; after a successful `mint`, every further
`mint` on the same claim is rejected (leaving the state unchanged, so no
second token is created), with `AlreadyMinted` for the recorded claimant
at any height from the minting one on; and no operation (record, mint,
oracle rotation) ever lowers a claim's lifecycle rank. -/
theorem C2_lifecycle_forward_only (env : Env) (bn : Nat) (s : VaultState)
    (ins : Bytes) (burner dl nonce cid : Nat) (pk sig : Bytes) :
    ((s.verifiedBurns (hashString ins) ≠ 0 ∨ s.mintedInscriptions (hashString ins) ≠ 0) →
      (∃ e, recordBurnWithAttestation env bn s ins burner dl nonce cid pk sig = .error e) ∧
      (bn ≤ dl → s.usedNonces nonce = 0 →
        recordBurnWithAttestation env bn s ins burner dl nonce cid pk sig = .error .AlreadyRecorded ∨
        recordBurnWithAttestation env bn s ins burner dl nonce cid pk sig = .error .AlreadyMinted)) ∧
    (∀ caller s2 tid, mint bn caller s ins = .ok (s2, tid) →
      ∀ bn2 caller2,
        (∀ s3 tid2, mint bn2 caller2 s2 ins ≠ .ok (s3, tid2)) ∧
        afterMint (mint bn2 caller2 s2 ins) s2 = s2 ∧
        (bn2 ≥ bn → hashAddress caller2 = hashAddress caller →
          mint bn2 caller2 s2 ins = .error .AlreadyMinted)) ∧
    (∀ s2, recordBurnWithAttestation env bn s ins burner dl nonce cid pk sig = .ok s2 →
      ∀ k, claimRank s k ≤ claimRank s2 k) ∧
    (∀ caller s2 tid, mint bn caller s ins = .ok (s2, tid) →
      ∀ k, claimRank s k ≤ claimRank s2 k) ∧
    (∀ caller newKey s2, setOracle caller s newKey = .ok s2 →
      ∀ k, claimRank s k ≤ claimRank s2 k) := by
  refine ⟨fun h => ⟨?_, ?_⟩, fun caller s2 tid hmint bn2 caller2 => ?_, fun s2 hrec => ?_,
    fun caller s2 tid hmint => ?_, fun caller newKey s2 hset => ?_⟩
  · apply exists_error_of_no_ok
    intro s2 hs2
    rw [record_ok_iff] at hs2
    obtain ⟨-, -, hv, hm, -⟩ := hs2
    rcases h with h | h
    · exact h hv
    · exact h hm
  · intro hdl hn
    by_cases hv : s.verifiedBurns (hashString ins) ≠ 0
    · exact Or.inl (record_error_already_recorded env bn s ins burner dl nonce cid pk sig hdl hn hv)
    · have hm : s.mintedInscriptions (hashString ins) ≠ 0 := by tauto
      exact Or.inr (record_error_already_minted env bn s ins burner dl nonce cid pk sig hdl hn
        (not_ne_iff.mp hv) hm)
  · rw [mint_ok_iff] at hmint
    obtain ⟨hv, heq, hb, hm, hsup, hown, htot, htid, hs⟩ := hmint
    subst hs
    subst htid
    have hmark : (setMap s.mintedInscriptions (hashString ins) (s.nextTokenId + 1))
        (hashString ins) ≠ 0 := by
      unfold setMap
      simp
    have hnok : ∀ s3 tid2, mint bn2 caller2
        { s with
          owners := fun x => if x = s.nextTokenId then some caller else s.owners x,
          totalSupply := s.totalSupply + 1,
          nextTokenId := s.nextTokenId + 1,
          tokenURIs := fun x => if x = s.nextTokenId then some ins else s.tokenURIs x,
          mintedInscriptions := setMap s.mintedInscriptions (hashString ins) (s.nextTokenId + 1) }
        ins ≠ .ok (s3, tid2) := by
      intro s3 tid2 hok
      rw [mint_ok_iff] at hok
      exact hmark hok.2.2.2.1
    refine ⟨hnok, ?_, fun hbn2 hcall => ?_⟩
    · rcases hres : mint bn2 caller2
          { s with
            owners := fun x => if x = s.nextTokenId then some caller else s.owners x,
            totalSupply := s.totalSupply + 1,
            nextTokenId := s.nextTokenId + 1,
            tokenURIs := fun x => if x = s.nextTokenId then some ins else s.tokenURIs x,
            mintedInscriptions := setMap s.mintedInscriptions (hashString ins) (s.nextTokenId + 1) }
          ins with e | p
      · rfl
      · exact absurd hres (by rcases p with ⟨s3, tid2⟩; exact hnok s3 tid2)
    · exact mint_error_already_minted bn2 caller2 _ ins hv
        (show s.verifiedBurns (hashString ins) = hashAddress caller2 by rw [heq, hcall])
        (show bn2 > s.burnBlockHeights (hashString ins) by omega) hmark
  · rw [record_ok_iff] at hrec
    obtain ⟨-, -, hv, hm, -, -, -, hs⟩ := hrec
    subst hs
    intro k
    by_cases hk : k = hashString ins
    · subst hk
      have h0 : claimRank s (hashString ins) = 0 := by
        unfold claimRank
        rw [if_neg (not_ne_iff.mpr hm), if_neg (not_ne_iff.mpr hv)]
      rw [h0]
      exact Nat.zero_le _
    · unfold claimRank setMap
      simp [hk]
  · rw [mint_ok_iff] at hmint
    obtain ⟨-, -, -, -, -, -, -, -, hs⟩ := hmint
    subst hs
    intro k
    by_cases hk : k = hashString ins
    · subst hk
      have h2 : claimRank
          { s with
            owners := fun x => if x = s.nextTokenId then some caller else s.owners x,
            totalSupply := s.totalSupply + 1,
            nextTokenId := s.nextTokenId + 1,
            tokenURIs := fun x => if x = s.nextTokenId then some ins else s.tokenURIs x,
            mintedInscriptions := setMap s.mintedInscriptions (hashString ins) (s.nextTokenId + 1) }
          (hashString ins) = 2 := by
        unfold claimRank setMap
        simp
      rw [h2]
      unfold claimRank
      split_ifs <;> omega
    · unfold claimRank setMap
      simp [hk]
  · unfold setOracle at hset
    split_ifs at hset
    cases hset
    exact fun k => le_rfl

/-- Witness for C2: on the concrete recorded state a replay of the record
call (fresh nonce 2, live deadline) is rejected with `AlreadyRecorded`. -/
theorem C2_lifecycle_forward_only_witness :
    (sRec.verifiedBurns (hashString [97]) ≠ 0 ∨ sRec.mintedInscriptions (hashString [97]) ≠ 0) ∧
    (recordBurnWithAttestation envT 6 sRec [97] 4 9 2 0 [] [] = .error .AlreadyRecorded ∨
      recordBurnWithAttestation envT 6 sRec [97] 4 9 2 0 [] [] = .error .AlreadyMinted) :=
  ⟨Or.inl (by decide),
    ((C2_lifecycle_forward_only envT 6 sRec [97] 4 9 2 0 [] []).1
      (Or.inl (by decide))).2 (by decide) (by decide)⟩

/-- Counterexample to C5 as stated: the deadline check precedes the nonce
check, so a call presenting the already consumed nonce 1, but with an
expired deadline, fails with `Expired`, not `NonceReused` — the failure
reason is not independent of the deadline field. -/
theorem C5_counterexample :
    recordBurnWithAttestation envT 5 sMax10 [97] 3 9 1 0 [] [] = .ok sRec ∧
    sRec.usedNonces 1 ≠ 0 ∧
    recordBurnWithAttestation envT 6 sRec [98] 4 0 1 0 [] [] = .error .Expired ∧
    VaultError.Expired ≠ VaultError.NonceReused :=
  ⟨rfl, by decide, rfl, by decide⟩

/-- Claim C5 (amended): a nonce consumed by a successful record is used
forever — any later record call presenting it whose deadline has not
passed fails with `NonceReused`, regardless of the remaining attestation
fields, and no operation (record, mint, oracle rotation) ever clears a
used-nonce marker. -/
theorem C5_nonce_single_use (env : Env) (bn : Nat) (s : VaultState)
    (ins : Bytes) (burner dl nonce cid : Nat) (pk sig : Bytes) :
    (bn ≤ dl → s.usedNonces nonce ≠ 0 →
      recordBurnWithAttestation env bn s ins burner dl nonce cid pk sig = .error .NonceReused) ∧
    (∀ s2, recordBurnWithAttestation env bn s ins burner dl nonce cid pk sig = .ok s2 →
      ∀ m, s.usedNonces m ≠ 0 → s2.usedNonces m ≠ 0) ∧
    (∀ caller s2 tid, mint bn caller s ins = .ok (s2, tid) → s2.usedNonces = s.usedNonces) ∧
    (∀ caller k s2, setOracle caller s k = .ok s2 → s2.usedNonces = s.usedNonces) := by
  refine ⟨fun hdl hn => record_error_nonce env bn s ins burner dl nonce cid pk sig hdl hn,
    fun s2 h m hm => ?_, fun caller s2 tid h => ?_, fun caller k s2 h => ?_⟩
  · rw [record_ok_iff] at h
    obtain ⟨-, -, -, -, -, -, -, hs⟩ := h
    subst hs
    unfold setMap
    by_cases hmn : m = nonce
    · simp [hmn]
    · simpa [hmn] using hm
  · rw [mint_ok_iff] at h
    obtain ⟨-, -, -, -, -, -, -, -, hs⟩ := h
    subst hs
    rfl
  · unfold setOracle at h
    split_ifs at h
    cases h
    rfl

/-- Witness for C5 (amended): reusing the consumed nonce 1 under a live
deadline is rejected with `NonceReused` whatever the other fields are. -/
theorem C5_nonce_single_use_witness :
    6 ≤ 9 ∧ sRec.usedNonces 1 ≠ 0 ∧
    recordBurnWithAttestation envT 6 sRec [98] 4 9 1 55 [1] [2] = .error .NonceReused :=
  ⟨by decide, by decide,
    (C5_nonce_single_use envT 6 sRec [98] 4 9 1 55 [1] [2]).1 (by decide) (by decide)⟩

/-- Claim C6: the confirmation delay is strict.  For a recorded unminted
claim, called by the recorded claimant with supply available, `mint` at
the recorded height fails with `ConfirmationPending` and the same call
one height later succeeds, returning the next token id. -/
theorem C6_strict_confirmation_boundary (caller : Nat) (s : VaultState) (ins : Bytes)
    (hv : s.verifiedBurns (hashString ins) ≠ 0)
    (heq : s.verifiedBurns (hashString ins) = hashAddress caller)
    (hm : s.mintedInscriptions (hashString ins) = 0)
    (hsup : s.nextTokenId < s.maxSupply)
    (hown : s.owners s.nextTokenId = none)
    (htot : s.totalSupply < s.maxSupply) :
    mint (s.burnBlockHeights (hashString ins)) caller s ins = .error .ConfirmationPending ∧
    ∃ s2, mint (s.burnBlockHeights (hashString ins) + 1) caller s ins = .ok (s2, s.nextTokenId) := by
  constructor
  · exact mint_error_pending _ caller s ins hv heq le_rfl
  · exact ⟨_, (mint_ok_iff _ caller s ins _ _).mpr
      ⟨hv, heq, by omega, hm, hsup, hown, htot, rfl, rfl⟩⟩

/-- Witness for C6: on the concrete recorded state (recorded at height 5)
the claimant's mint at height 5 is pending and at height 6 succeeds. -/
theorem C6_strict_confirmation_boundary_witness :
    sRec.burnBlockHeights (hashString [97]) = 5 ∧
    (mint 5 3 sRec [97] = .error .ConfirmationPending ∧
      ∃ s2, mint 6 3 sRec [97] = .ok (s2, sRec.nextTokenId)) :=
  ⟨by decide,
    C6_strict_confirmation_boundary 3 sRec [97] (by decide) (by decide) (by decide)
      (by decide) (by decide) (by decide)⟩

/-- Claim C7: oracle rotation is deployer-only and immediate.  A
non-deployer caller gets `Unauthorized` and the fingerprint is unchanged;
the deployer's rotation to `k2` succeeds; and afterwards every record
call whose public key does not hash to `k2` fails with
`UnknownOracleKey` (for every environment — in particular even when its
signature verifier would have accepted the signature, e.g. one made under
the previously trusted key). -/
theorem C7_oracle_rotation (s : VaultState) :
    (∀ caller k, caller ≠ s.deployer →
      setOracle caller s k = .error .Unauthorized ∧
      (afterRecord (setOracle caller s k) s).oracleKeyHash = s.oracleKeyHash) ∧
    (∀ k2, setOracle s.deployer s k2 = .ok { s with oracleKeyHash := k2 }) ∧
    (∀ k2 (env : Env) bn ins burner dl nonce cid pk sig,
      u256fromBytesLE (env.sha256 pk) ≠ k2 →
      bn ≤ dl → s.usedNonces nonce = 0 →
      s.verifiedBurns (hashString ins) = 0 →
      s.mintedInscriptions (hashString ins) = 0 →
      (s.collectionIdHash = 0 ∨ cid = s.collectionIdHash) →
      recordBurnWithAttestation env bn { s with oracleKeyHash := k2 } ins burner dl nonce cid pk sig =
        .error .UnknownOracleKey) := by
  refine ⟨fun caller k hne => ?_, fun k2 => ?_,
    fun k2 env bn ins burner dl nonce cid pk sig hk hdl hn hv hm hc => ?_⟩
  · have h : setOracle caller s k = .error .Unauthorized := by
      unfold setOracle
      rw [if_pos hne]
    exact ⟨h, by rw [h]; rfl⟩
  · unfold setOracle
    rw [if_neg (by simp)]
  · exact record_error_unknown_key env bn _ ins burner dl nonce cid pk sig hdl hn hv hm hc hk

/-- Witness for C7: caller 8 is not the deployer 7 and gets
`Unauthorized`; the deployer rotates to fingerprint 5; afterwards the
all-accepting environment still rejects the record call with
`UnknownOracleKey` because the supplied key hashes to 0, not 5. -/
theorem C7_oracle_rotation_witness :
    (8 ≠ sMax10.deployer ∧
      setOracle 8 sMax10 5 = .error .Unauthorized ∧
      (afterRecord (setOracle 8 sMax10 5) sMax10).oracleKeyHash = sMax10.oracleKeyHash) ∧
    setOracle sMax10.deployer sMax10 5 = .ok { sMax10 with oracleKeyHash := 5 } ∧
    recordBurnWithAttestation envT 5 { sMax10 with oracleKeyHash := 5 } [97] 3 9 1 0 [] [] =
      .error .UnknownOracleKey :=
  ⟨⟨by decide,
      ((C7_oracle_rotation sMax10).1 8 5 (by decide)).1,
      ((C7_oracle_rotation sMax10).1 8 5 (by decide)).2⟩,
    (C7_oracle_rotation sMax10).2.1 5,
    (C7_oracle_rotation sMax10).2.2 5 envT 5 [97] 3 9 1 0 [] [] (by decide) (by decide)
      (by decide) (by decide) (by decide) (Or.inl (by decide))⟩

/-- Claim C8: collection scoping.  With a non-zero stored binding, a
record call carrying any other collection id (zero included) whose
earlier checks pass fails with `CollectionMismatch`, for every
environment — so before the signature verifier is ever consulted; with a
zero stored binding, no record call is ever rejected with
`CollectionMismatch`. -/
theorem C8_collection_binding (env : Env) (bn : Nat) (s : VaultState)
    (ins : Bytes) (burner dl nonce cid : Nat) (pk sig : Bytes) :
    (s.collectionIdHash ≠ 0 → cid ≠ s.collectionIdHash →
      bn ≤ dl → s.usedNonces nonce = 0 →
      s.verifiedBurns (hashString ins) = 0 → s.mintedInscriptions (hashString ins) = 0 →
      recordBurnWithAttestation env bn s ins burner dl nonce cid pk sig = .error .CollectionMismatch) ∧
    (s.collectionIdHash = 0 →
      recordBurnWithAttestation env bn s ins burner dl nonce cid pk sig ≠ .error .CollectionMismatch) := by
  constructor
  · intro hcz hne hdl hn hv hm
    exact record_error_collection env bn s ins burner dl nonce cid pk sig hdl hn hv hm hcz hne
  · intro hz h
    unfold recordBurnWithAttestation at h
    split_ifs at h with h1 h2 h3 h4 h5 h6 h7 <;> simp_all

/-- Witness for C8: the vault scoped to collection 77 rejects a record
call carrying collection id 0 with `CollectionMismatch`, and the
universal-mode vault never produces that error. -/
theorem C8_collection_binding_witness :
    recordBurnWithAttestation envT 5 sCol [97] 3 9 1 0 [] [] = .error .CollectionMismatch ∧
    recordBurnWithAttestation envT 5 sMax10 [97] 3 9 1 0 [] [] ≠ .error .CollectionMismatch :=
  ⟨(C8_collection_binding envT 5 sCol [97] 3 9 1 0 [] []).1 (by decide) (by decide)
      (by decide) (by decide) (by decide) (by decide),
    (C8_collection_binding envT 5 sMax10 [97] 3 9 1 0 [] []).2 (by decide)⟩

/-- Claim C9: only the attested claimant can mint.  For a recorded,
unminted claim, a caller whose address digest differs from the recorded
burner fingerprint (the contract compares `hashAddress` digests, which is
how it distinguishes addresses) is rejected with `WrongClaimant`, and the
state is unchanged. -/
theorem C9_wrong_claimant (bn caller : Nat) (s : VaultState) (ins : Bytes)
    (hv : s.verifiedBurns (hashString ins) ≠ 0)
    (_hm : s.mintedInscriptions (hashString ins) = 0)
    (hne : hashAddress caller ≠ s.verifiedBurns (hashString ins)) :
    mint bn caller s ins = .error .WrongClaimant ∧
    afterMint (mint bn caller s ins) s = s := by
  have h := mint_error_wrong_claimant bn caller s ins hv (fun he => hne he.symm)
  exact ⟨h, by rw [h]; rfl⟩

/-- Witness for C9: on the concrete recorded state (burner 3), caller 4 —
whose digest differs — is rejected with `WrongClaimant` even though every
other mint condition holds there. -/
theorem C9_wrong_claimant_witness :
    hashAddress 4 ≠ hashAddress 3 ∧
    (mint 6 4 sRec [97] = .error .WrongClaimant ∧ afterMint (mint 6 4 sRec [97]) sRec = sRec) :=
  ⟨by decide,
    C9_wrong_claimant 6 4 sRec [97] (by decide) (by decide) (by decide)⟩

/-- Claim C10: claims are identified only by the FNV-1a hash of the
inscription id.  For ids with equal `hashString`: burn status queries
agree on every state; once a burn for `s1` is successfully recorded (with
a burner whose fingerprint is non-zero — zero doubles as the unset
sentinel), a record call for `s2` with live deadline and fresh nonce is
rejected `AlreadyRecorded`; and `mint` on `s2` operates on the very burn
record of `s1`: its outcome and token id coincide with `mint` on `s1` and
on success it sets the minted marker at `hashString s1` (the states can
differ only in the stored token URI string). -/
theorem C10_key_aliasing (s1 s2 : Bytes) (hh : hashString s1 = hashString s2) :
    (∀ s, getBurnStatus s s1 = getBurnStatus s s2) ∧
    (∀ (env : Env) bn s burner dl nonce cid pk sig st,
      hashAddress burner ≠ 0 →
      recordBurnWithAttestation env bn s s1 burner dl nonce cid pk sig = .ok st →
      ∀ bn2 burner2 dl2 nonce2 cid2 pk2 sig2,
        bn2 ≤ dl2 → st.usedNonces nonce2 = 0 →
        recordBurnWithAttestation env bn2 st s2 burner2 dl2 nonce2 cid2 pk2 sig2 =
          .error .AlreadyRecorded) ∧
    (∀ bn caller s,
      (∀ e, mint bn caller s s2 = .error e ↔ mint bn caller s s1 = .error e) ∧
      (∀ st tid, mint bn caller s s2 = .ok (st, tid) →
        ∃ st1, mint bn caller s s1 = .ok (st1, tid) ∧
          st.mintedInscriptions = st1.mintedInscriptions ∧
          st.mintedInscriptions (hashString s1) = tid + 1 ∧
          st.verifiedBurns = st1.verifiedBurns ∧
          st.burnBlockHeights = st1.burnBlockHeights ∧
          st.owners = st1.owners ∧
          st.nextTokenId = st1.nextTokenId ∧
          st.totalSupply = st1.totalSupply)) := by
  refine ⟨fun s => ?_, fun env bn s burner dl nonce cid pk sig st hb0 hok
      bn2 burner2 dl2 nonce2 cid2 pk2 sig2 hdl2 hn2 => ?_, fun bn caller s => ⟨fun e => ?_, ?_⟩⟩
  · unfold getBurnStatus
    rw [hh]
  · rw [record_ok_iff] at hok
    obtain ⟨-, -, -, -, -, -, -, hs⟩ := hok
    subst hs
    apply record_error_already_recorded env bn2 _ s2 burner2 dl2 nonce2 cid2 pk2 sig2 hdl2 hn2
    show setMap s.verifiedBurns (hashString s1) (hashAddress burner) (hashString s2) ≠ 0
    unfold setMap
    rw [if_pos hh.symm]
    exact hb0
  · unfold mint
    rw [hh]
    split_ifs <;> simp
  · intro st tid hok
    rw [mint_ok_iff] at hok
    obtain ⟨hv, heq, hb, hm, hsup, hown, htot, htid, hs⟩ := hok
    subst hs
    subst htid
    refine ⟨{ s with
        owners := fun x => if x = s.nextTokenId then some caller else s.owners x,
        totalSupply := s.totalSupply + 1,
        nextTokenId := s.nextTokenId + 1,
        tokenURIs := fun x => if x = s.nextTokenId then some s1 else s.tokenURIs x,
        mintedInscriptions := setMap s.mintedInscriptions (hashString s1) (s.nextTokenId + 1) },
      ?_, ?_, ?_, rfl, rfl, rfl, rfl, rfl⟩
    · rw [mint_ok_iff]
      rw [← hh] at hv heq hb hm
      exact ⟨hv, heq, hb, hm, hsup, hown, htot, rfl, rfl⟩
    · show setMap s.mintedInscriptions (hashString s2) (s.nextTokenId + 1) =
        setMap s.mintedInscriptions (hashString s1) (s.nextTokenId + 1)
      rw [hh]
    · show setMap s.mintedInscriptions (hashString s2) (s.nextTokenId + 1) (hashString s1) =
        s.nextTokenId + 1
      unfold setMap
      rw [if_pos hh]

/-- Witness for C10: instantiated at the (hash-equal) id `[97]` itself on
the concrete vault: the status query agrees and the replay after the
successful record is rejected `AlreadyRecorded`. -/
theorem C10_key_aliasing_witness :
    getBurnStatus sRec [97] = getBurnStatus sRec [97] ∧
    (hashAddress 3 ≠ 0 ∧
      recordBurnWithAttestation envT 5 sMax10 [97] 3 9 1 0 [] [] = .ok sRec ∧
      recordBurnWithAttestation envT 6 sRec [97] 4 9 2 0 [] [] = .error .AlreadyRecorded) :=
  ⟨(C10_key_aliasing [97] [97] rfl).1 sRec,
    ⟨by decide, rfl,
      (C10_key_aliasing [97] [97] rfl).2.1 envT 5 sMax10 3 9 1 0 [] [] sRec (by decide) rfl
        6 4 9 2 0 [] [] (by decide) (by decide)⟩⟩

end OrdinalsVault
